import Mathlib

/-
Shallow embedding of src/main.go: an in-process secret store (SecureStore)
that encrypts stored byte blobs under per-item keys derived from a random
master key, and zero-wipes buffers it releases.

Modelling conventions:
- a Go byte is a Nat (all arithmetic performed on bytes here stays below 256);
- a Go string used as a map key or as a derivation input is represented by
  its UTF-8 byte sequence, of type Bytes;
- Go maps are association lists with lookup or insert or erase; insert
  replaces any prior binding, as Go map assignment does;
- the AES block cipher and the AES-GCM AEAD are external library primitives
  (crypto/aes, crypto/cipher), not code of this repository; they enter the
  embedding as parameters (a block-encrypt function E and an AEAD structure),
  and theorems that need their contracts (GCM open inverts seal, AES under a
  fixed key is an injective length-preserving map on 16-byte blocks) take
  those contracts as hypotheses;
- randomness (nonce generation in encryptData) is passed in explicitly as an
  entropy argument: some nonce models a successful read of rand.Reader, none
  models a failing one;
- in-place wiping of a buffer (wipeBytes, wipeKey) is rendered functionally:
  an operation that mutates a buffer returns, alongside its functional
  result, the final contents of that buffer, i.e. what a caller who retained
  a reference to it observes after the call.
-/

namespace SafeMem

abbrev Bytes := List Nat

/-- Association list standing for a Go map keyed by a string (its UTF-8
bytes) with byte-slice or 32-byte-array values. -/
abbrev AList := List (Bytes × Bytes)

def mapLookup : AList → Bytes → Option Bytes
  | [], _ => none
  | (k', v) :: rest, k => if k' = k then some v else mapLookup rest k

def mapErase : AList → Bytes → AList
  | [], _ => []
  | (k', v) :: rest, k => if k' = k then mapErase rest k else (k', v) :: mapErase rest k

/-- Go map assignment m[k] = v: replaces any prior binding for k. -/
def mapInsert (m : AList) (k v : Bytes) : AList := (k, v) :: mapErase m k

/-- binary.LittleEndian.PutUint64: the 8 little-endian bytes of n. -/
def le64 (n : Nat) : Bytes := (List.range 8).map (fun j => n / 256 ^ j % 256)

/-- One 16-byte input block of deriveKey (main.go lines 53-56): a zero block
receives copy(block, idBytes), then PutUint64(block[8:], i) overwrites bytes
8..15 with the little-endian counter. -/
def deriveBlock (idBytes : Bytes) (i : Nat) : Bytes :=
  (idBytes.take 16 ++ List.replicate (16 - idBytes.length) 0).take 8 ++ le64 i

/-- deriveKey (main.go lines 45-65). E masterKey is the AES block-encrypt
function keyed with the master key; the loop runs for i = 0 and i = 16 and
writes each encrypted block into the output at offset i. -/
def deriveKey (E : Bytes → Bytes → Bytes) (masterKey idBytes : Bytes) : Bytes :=
  E masterKey (deriveBlock idBytes 0) ++ E masterKey (deriveBlock idBytes 16)

/-- The AES-GCM transform from crypto/cipher, abstracted: nonceSize is
gcm.NonceSize(), seal key nonce pt is gcm.Seal(nil, nonce, pt, nil), and
openAead key nonce ct is gcm.Open(nil, nonce, ct, nil) with failure as none. -/
structure AEAD where
  nonceSize : Nat
  sealAead : Bytes → Bytes → Bytes → Bytes
  openAead : Bytes → Bytes → Bytes → Option Bytes

/-- The error values the store code can produce or swallow.
randomnessUnavailable models a failed io.ReadFull(rand.Reader, nonce);
invalidCiphertext models the errors.New result for a blob shorter than the
nonce; authFailed models a gcm.Open verification error. -/
inductive CryptoErr where
  | randomnessUnavailable
  | invalidCiphertext
  | authFailed
deriving DecidableEq

/-- encryptData (main.go lines 127-145). aes.NewCipher on a 32-byte key and
cipher.NewGCM on AES never fail, so the only failure is nonce generation;
on success the result is gcm.Seal(nonce, nonce, data, nil) = nonce appended
with the sealed payload. -/
def encryptData (A : AEAD) (data key : Bytes) (entropy : Option Bytes) :
    Except CryptoErr Bytes :=
  match entropy with
  | none => .error .randomnessUnavailable
  | some nonce => .ok (nonce ++ A.sealAead key nonce data)

/-- decryptData (main.go lines 147-170): length check against the nonce
size, split into nonce and ciphertext, then gcm.Open. -/
def decryptData (A : AEAD) (encrypted key : Bytes) : Except CryptoErr Bytes :=
  if encrypted.length < A.nonceSize then .error .invalidCiphertext
  else
    match A.openAead key (encrypted.take A.nonceSize) (encrypted.drop A.nonceSize) with
    | none => .error .authFailed
    | some pt => .ok pt

/-- The SecureStore state (main.go lines 19-25): master key and the two
parallel mappings. The mutex and cleanupFunc carry no data relevant here;
every operation below is one atomic step under the lock. -/
structure SecureStore where
  masterKey : Bytes
  dataStore : AList
  keyCache : AList
deriving DecidableEq

/-- Functional rendering of one call to Set: the resulting store, the final
contents of the caller-provided data buffer (Set wipes it in place on
success and leaves it untouched on error), the final contents of the buffer
that previously backed the ciphertext for this key if one was stored (Set
never writes to it, so a retained reference still observes the old bytes),
and the returned error. -/
structure SetResult where
  store : SecureStore
  callerBuf : Bytes
  oldCipherBuf : Option Bytes
  err : Option CryptoErr
deriving DecidableEq

/-- Set (main.go lines 69-90): derive the item key, encrypt, store both the
ciphertext and the key, then wipe the caller buffer. On encryption error it
returns before touching the mappings or the caller buffer. -/
def SecureStore.set (E : Bytes → Bytes → Bytes) (A : AEAD) (s : SecureStore)
    (k data : Bytes) (entropy : Option Bytes) : SetResult :=
  let itemKey := deriveKey E s.masterKey k
  match encryptData A data itemKey entropy with
  | .error e => ⟨s, data, mapLookup s.dataStore k, some e⟩
  | .ok encrypted =>
      ⟨⟨s.masterKey, mapInsert s.dataStore k encrypted, mapInsert s.keyCache k itemKey⟩,
       List.replicate data.length 0, mapLookup s.dataStore k, none⟩

/-- Get (main.go lines 92-113): look up ciphertext then key, decrypt; every
failure is reported as absence (none stands for the (nil, false) return). -/
def SecureStore.get (A : AEAD) (s : SecureStore) (k : Bytes) : Option Bytes :=
  match mapLookup s.dataStore k with
  | none => none
  | some encrypted =>
      match mapLookup s.keyCache k with
      | none => none
      | some itemKey =>
          match decryptData A encrypted itemKey with
          | .error _ => none
          | .ok decrypted => some decrypted

/-- Delete (main.go lines 174-189): the resulting store, plus the final
contents of the wiped buffers. The second component is what a retained
reference to the stored ciphertext slice observes (wipeBytes zeroes its
backing array in place); the third is the final contents of the itemKey
value wipeKey zeroes. Go note: itemKey there is a [32]byte copied out of
the map by value, so wipeKey acts on that copy; in this value-level model
the copy and the stored value are the same list. -/
def SecureStore.delete (s : SecureStore) (k : Bytes) :
    SecureStore × Option Bytes × Option Bytes :=
  (⟨s.masterKey, mapErase s.dataStore k, mapErase s.keyCache k⟩,
   (mapLookup s.dataStore k).map (fun e => List.replicate e.length 0),
   (mapLookup s.keyCache k).map (fun e => List.replicate e.length 0))

/-- Wipe (main.go lines 191-211): wipe and remove every ciphertext and key,
then wipe the master key in place (wipeKey receives a pointer to the actual
masterKey field, so the field itself becomes all zero). -/
def SecureStore.wipe (s : SecureStore) : SecureStore :=
  ⟨List.replicate s.masterKey.length 0, [], []⟩

/-- Outcome of the caller-supplied operation handed to GetAndUse: it either
returns (nil or a domain error of type ε), or raises a panic. -/
inductive FnOutcome (ε : Type) where
  | ret (e : Option ε)
  | raises
deriving DecidableEq

/-- What one call to GetAndUse does for its caller: the not-found error
(errors.New for an absent key), a completed call propagating the result of
the operation, or a propagated panic. -/
inductive GAUResult (ε : Type) where
  | notFound
  | completed (e : Option ε)
  | raised
deriving DecidableEq

def propagateOutcome : FnOutcome ε → GAUResult ε
  | .ret e => .completed e
  | .raises => .raised

/-- GetAndUse (main.go lines 115-123): Get, then defer wipeBytes(data), then
run fn. Go defer semantics: the wipe runs after fn returns or panics, before
control leaves GetAndUse. The second component is the final contents of the
plaintext buffer fn was given, when one existed. -/
def SecureStore.getAndUse (A : AEAD) (s : SecureStore) (k : Bytes)
    (fn : Bytes → FnOutcome ε) : GAUResult ε × Option Bytes :=
  match s.get A k with
  | none => (.notFound, none)
  | some data => (propagateOutcome (fn data), some (List.replicate data.length 0))

/-- Process-wide state relevant to memory reclamation: the value last passed
to debug.SetGCPercent, together with the store. -/
structure GoProcess where
  gcPercent : Int
  store : SecureStore
deriving DecidableEq

/-- NewSecureStore (main.go lines 27-42): fresh store with the given master
key; registerCleanup (lines 227-239) immediately calls
debug.SetGCPercent(-1), disabling collection for the whole process. -/
def newSecureStore (masterKey : Bytes) : GoProcess :=
  ⟨-1, ⟨masterKey, [], []⟩⟩

/-- Calling Wipe on the store inside the process: Wipe (main.go lines
191-211) touches only the two mappings and the master key; no statement in
its body calls debug.SetGCPercent. -/
def GoProcess.wipeStore (p : GoProcess) : GoProcess :=
  ⟨p.gcPercent, p.store.wipe⟩

/-- The closure stored in s.cleanupFunc by registerCleanup (main.go lines
235-238): Wipe then debug.SetGCPercent(100). No statement anywhere in
main.go ever invokes s.cleanupFunc. -/
def GoProcess.cleanupFunc (p : GoProcess) : GoProcess :=
  ⟨100, p.store.wipe⟩

/-- Store states reachable from a fresh store through the public mutating
API. Get and GetAndUse never modify the store (GetAndUse wipes only the
plaintext buffer it handed out), so they need no constructor. A failing Set
is covered by the set constructor with entropy = none, whose resulting
store is the unchanged input store. -/
inductive Reachable (E : Bytes → Bytes → Bytes) (A : AEAD) : SecureStore → Prop where
  | new (mk : Bytes) : Reachable E A ⟨mk, [], []⟩
  | set (s : SecureStore) (k data : Bytes) (ent : Option Bytes) :
      Reachable E A s → Reachable E A (SecureStore.set E A s k data ent).store
  | del (s : SecureStore) (k : Bytes) :
      Reachable E A s → Reachable E A (s.delete k).1
  | wipe (s : SecureStore) :
      Reachable E A s → Reachable E A s.wipe

theorem mapLookup_erase (m : AList) (k k' : Bytes) :
    mapLookup (mapErase m k) k' = if k = k' then none else mapLookup m k' := by
  induction m with
  | nil => simp [mapErase, mapLookup]
  | cons p rest ih =>
      obtain ⟨a, v⟩ := p
      simp only [mapErase, mapLookup]
      by_cases hak : a = k <;> by_cases hkk : k = k' <;>
        simp_all [mapLookup]

theorem mapLookup_insert (m : AList) (k v k' : Bytes) :
    mapLookup (mapInsert m k v) k' = if k = k' then some v else mapLookup m k' := by
  by_cases h : k = k' <;> simp [mapInsert, mapLookup, mapLookup_erase, h]

theorem mapErase_of_lookup_none (m : AList) (k : Bytes) (h : mapLookup m k = none) :
    mapErase m k = m := by
  induction m with
  | nil => rfl
  | cons p rest ih =>
      obtain ⟨a, v⟩ := p
      simp only [mapLookup] at h
      by_cases hak : a = k
      · simp [hak] at h
      · simp only [mapErase, if_neg hak]
        rw [ih (by simpa [hak] using h)]

theorem decryptData_append (A : AEAD) (key nonce ct : Bytes)
    (hn : nonce.length = A.nonceSize) :
    decryptData A (nonce ++ ct) key =
      match A.openAead key nonce ct with
      | none => .error .authFailed
      | some pt => .ok pt := by
  have hlen : ¬ (nonce ++ ct).length < A.nonceSize := by
    rw [List.length_append, ← hn]
    omega
  unfold decryptData
  rw [if_neg hlen, ← hn, List.take_left, List.drop_left]

/-- Concrete stand-in for the block cipher parameter, used only to evaluate
the model at explicit inputs: the identity map on blocks (injective and
length-preserving, like a real block cipher under a fixed key). -/
def idBlockCipher : Bytes → Bytes → Bytes := fun _ block => block

/-- Concrete executable stand-in for the AEAD parameter, used only to
evaluate the model at explicit inputs: sealing prefixes a tag byte, opening
checks and strips it. -/
def testAEAD : AEAD where
  nonceSize := 12
  sealAead := fun _ _ pt => 1 :: pt
  openAead := fun _ _ ct =>
    match ct with
    | c :: rest => if c = 1 then some rest else none
    | [] => none

theorem testAEAD_roundtrip (key nonce pt : Bytes) :
    testAEAD.openAead key nonce (testAEAD.sealAead key nonce pt) = some pt := rfl

def mk0 : Bytes := List.replicate 32 0

def nonce0 : Bytes := List.replicate 12 0

def store0 : SecureStore := ⟨mk0, [], []⟩

/-- A store holding one entry, reached by one successful Set. -/
def store1 : SecureStore :=
  (SecureStore.set idBlockCipher testAEAD store0 [1] [5, 6] (some nonce0)).store

theorem get_insert_self (A : AEAD) (mk' : Bytes) (ds ks : AList) (k e ik : Bytes) :
    SecureStore.get A ⟨mk', mapInsert ds k e, mapInsert ks k ik⟩ k =
      match decryptData A e ik with
      | .error _ => none
      | .ok d => some d := by
  unfold SecureStore.get
  rw [mapLookup_insert, if_pos rfl, mapLookup_insert, if_pos rfl]

/-- The first 8 bytes of every deriveKey input block: what survives of the
identifier after PutUint64 overwrites bytes 8..15. -/
def idPrefix8 (idBytes : Bytes) : Bytes :=
  (idBytes.take 16 ++ List.replicate (16 - idBytes.length) 0).take 8

theorem deriveBlock_eq (idBytes : Bytes) (i : Nat) :
    deriveBlock idBytes i = idPrefix8 idBytes ++ le64 i := rfl

theorem idPrefix8_length (idBytes : Bytes) : (idPrefix8 idBytes).length = 8 := by
  simp [idPrefix8]
  omega

theorem deriveBlock_length (idBytes : Bytes) (i : Nat) :
    (deriveBlock idBytes i).length = 16 := by
  rw [deriveBlock_eq, List.length_append, idPrefix8_length]
  simp [le64]

/-- The structural collision in deriveKey: since bytes 8..15 of each input
block are overwritten by the counter, identifiers sharing the first 8 bytes
of their zero-padded encodings derive identical keys, whatever the block
cipher and master key are. -/
theorem deriveKey_eq_of_idPrefix8_eq (E : Bytes → Bytes → Bytes) (mk idA idB : Bytes)
    (h : idPrefix8 idA = idPrefix8 idB) : deriveKey E mk idA = deriveKey E mk idB := by
  unfold deriveKey
  rw [deriveBlock_eq, deriveBlock_eq, deriveBlock_eq, deriveBlock_eq, h]

/-- C1: for every identifier k and byte sequence v, Set(k, v) followed by
Get(k) returns (v, true), where v is the byte sequence as passed to Set,
even though Set zeroes the caller buffer as a side effect. Stated under the
AEAD contract (open inverts seal) and for a nonce of the required size. -/
theorem C1_set_then_get_roundtrip (E : Bytes → Bytes → Bytes) (A : AEAD)
    (hA : ∀ key nonce pt, A.openAead key nonce (A.sealAead key nonce pt) = some pt)
    (s : SecureStore) (k v nonce : Bytes) (hn : nonce.length = A.nonceSize) :
    (SecureStore.set E A s k v (some nonce)).err = none ∧
    (SecureStore.set E A s k v (some nonce)).callerBuf = List.replicate v.length 0 ∧
    ((SecureStore.set E A s k v (some nonce)).store).get A k = some v := by
  have hstore : (SecureStore.set E A s k v (some nonce)).store =
      ⟨s.masterKey,
       mapInsert s.dataStore k (nonce ++ A.sealAead (deriveKey E s.masterKey k) nonce v),
       mapInsert s.keyCache k (deriveKey E s.masterKey k)⟩ := rfl
  refine ⟨rfl, rfl, ?_⟩
  rw [hstore, get_insert_self, decryptData_append A _ nonce _ hn, hA]

theorem C1_witness :
    (SecureStore.set idBlockCipher testAEAD store0 [1] [5, 6] (some nonce0)).err = none ∧
    (SecureStore.set idBlockCipher testAEAD store0 [1] [5, 6] (some nonce0)).callerBuf =
      List.replicate ([5, 6] : Bytes).length 0 ∧
    ((SecureStore.set idBlockCipher testAEAD store0 [1] [5, 6] (some nonce0)).store).get
      testAEAD [1] = some [5, 6] :=
  C1_set_then_get_roundtrip idBlockCipher testAEAD testAEAD_roundtrip store0 [1] [5, 6]
    nonce0 (by decide)

/-- C2 counterexample: Set on an identifier that is already present does not
zero the previously stored ciphertext buffer. In the store store1 the entry
for identifier [1] is backed by the bytes nonce0 ++ [1, 5, 6]; after the
overwriting Set those bytes are still intact (and are not all zero), contrary
to the claim that the old ciphertext is wiped before being replaced. -/
theorem C2_counterexample :
    (SecureStore.set idBlockCipher testAEAD store1 [1] [7, 8] (some nonce0)).err = none ∧
    (SecureStore.set idBlockCipher testAEAD store1 [1] [7, 8] (some nonce0)).oldCipherBuf =
      some (nonce0 ++ [1, 5, 6]) ∧
    nonce0 ++ [1, 5, 6] ≠ List.replicate (nonce0 ++ ([1, 5, 6] : Bytes)).length 0 := by
  decide

/-- C2 amended: Set on a present identifier overwrites both entries, storing
the new ciphertext and the re-derived per-item key (which equals the old one,
derivation being deterministic), but it performs no wipe of the previously
stored ciphertext buffer: that buffer keeps the bytes it held before the
call. -/
theorem C2_amended_overwrite_without_wipe (E : Bytes → Bytes → Bytes) (A : AEAD)
    (s : SecureStore) (k data nonce : Bytes) :
    (SecureStore.set E A s k data (some nonce)).err = none ∧
    (SecureStore.set E A s k data (some nonce)).store.dataStore =
      mapInsert s.dataStore k (nonce ++ A.sealAead (deriveKey E s.masterKey k) nonce data) ∧
    (SecureStore.set E A s k data (some nonce)).store.keyCache =
      mapInsert s.keyCache k (deriveKey E s.masterKey k) ∧
    (SecureStore.set E A s k data (some nonce)).oldCipherBuf = mapLookup s.dataStore k :=
  ⟨rfl, rfl, rfl, rfl⟩

/-- C3 counterexample: the identifiers aaaaaaaa1 and aaaaaaaa2 (UTF-8 bytes
below) are distinct, yet they derive the same per-item key, because deriveKey
overwrites bytes 8..15 of each input block with the counter, so only the
first 8 bytes of the identifier influence the result (see
deriveKey_eq_of_idPrefix8_eq: the collision holds for every block cipher and
master key; it is evaluated here at the concrete stand-in). -/
theorem C3_counterexample :
    ([97, 97, 97, 97, 97, 97, 97, 97, 49] : Bytes) ≠
      [97, 97, 97, 97, 97, 97, 97, 97, 50] ∧
    deriveKey idBlockCipher mk0 [97, 97, 97, 97, 97, 97, 97, 97, 49] =
      deriveKey idBlockCipher mk0 [97, 97, 97, 97, 97, 97, 97, 97, 50] := by
  decide

/-- C3 amended: derived keys differ only when the identifiers differ within
the first 8 bytes of their zero-padded UTF-8 encodings; under that condition,
and with the block cipher injective and length-preserving on 16-byte blocks
(true of AES under any fixed key), the two derived keys are distinct.
Identifiers agreeing on those 8 bytes always collide. -/
theorem C3_amended_distinct_iff_prefix8_differs (E : Bytes → Bytes → Bytes)
    (mk idA idB : Bytes)
    (hinj : ∀ b1 b2 : Bytes, b1.length = 16 → b2.length = 16 → E mk b1 = E mk b2 → b1 = b2)
    (hlen : ∀ b : Bytes, b.length = 16 → (E mk b).length = 16)
    (hpre : idPrefix8 idA ≠ idPrefix8 idB) :
    deriveKey E mk idA ≠ deriveKey E mk idB := by
  intro h
  unfold deriveKey at h
  have h0 : E mk (deriveBlock idA 0) = E mk (deriveBlock idB 0) :=
    (List.append_inj h (by rw [hlen _ (deriveBlock_length idA 0),
      hlen _ (deriveBlock_length idB 0)])).1
  have hb : deriveBlock idA 0 = deriveBlock idB 0 :=
    hinj _ _ (deriveBlock_length idA 0) (deriveBlock_length idB 0) h0
  rw [deriveBlock_eq, deriveBlock_eq] at hb
  exact hpre (List.append_cancel_right hb)

theorem C3_amended_witness :
    deriveKey idBlockCipher mk0 [10] ≠ deriveKey idBlockCipher mk0 [11] :=
  C3_amended_distinct_iff_prefix8_differs idBlockCipher mk0 [10] [11]
    (fun _ _ _ _ h => h) (fun _ hb => hb) (by decide)

theorem get_eq_bind (A : AEAD) (s : SecureStore) (k : Bytes) :
    s.get A k = (mapLookup s.dataStore k).bind (fun e =>
      (mapLookup s.keyCache k).bind (fun ik => (decryptData A e ik).toOption)) := by
  unfold SecureStore.get
  cases hd : mapLookup s.dataStore k with
  | none => simp
  | some e =>
      simp only [Option.some_bind]
      cases hk : mapLookup s.keyCache k with
      | none => simp
      | some ik =>
          simp only [Option.some_bind]
          cases hdec : decryptData A e ik with
          | error err => simp [Except.toOption]
          | ok d => simp [Except.toOption]

/-- C4: for an identifier whose lookup and decryption succeed, GetAndUse
invokes the operation on the decrypted plaintext, wipes the plaintext buffer
on every exit path (the operation returning nil, returning an error, or
raising a panic: the final contents of the buffer are all-zero in all cases,
the outcome of fn being arbitrary here), and propagates the operation result;
for an absent identifier it returns the not-found error, and the result does
not depend on the operation, which is therefore never invoked. -/
theorem C4_getAndUse_scoped_wipe {ε : Type} (A : AEAD) (s : SecureStore) (k : Bytes) :
    (∀ (data : Bytes) (fn : Bytes → FnOutcome ε), s.get A k = some data →
        s.getAndUse A k fn =
          (propagateOutcome (fn data), some (List.replicate data.length 0))) ∧
    (mapLookup s.dataStore k = none →
        ∀ fn : Bytes → FnOutcome ε, s.getAndUse A k fn = (.notFound, none)) := by
  constructor
  · intro data fn h
    unfold SecureStore.getAndUse
    rw [h]
  · intro h fn
    have hget : s.get A k = none := by
      unfold SecureStore.get
      rw [h]
    unfold SecureStore.getAndUse
    rw [hget]

theorem C4_witness :
    store1.getAndUse testAEAD [1] (fun _ => FnOutcome.ret (some 7)) =
      (GAUResult.completed (some 7), some (List.replicate 2 0)) :=
  (@C4_getAndUse_scoped_wipe Nat testAEAD store1 [1]).1 [5, 6]
    (fun _ => FnOutcome.ret (some 7)) (by decide)

/-- C5: Get reports absence through its boolean result, never through an
error (its return type has no error component; none stands for (nil, false)):
a missing entry in either mapping yields none, a failing decryption of the
stored blob yields none, and some v holds exactly when both lookups and the
decryption succeed. -/
theorem C5_get_absence_via_boolean (A : AEAD) (s : SecureStore) (k : Bytes) :
    (mapLookup s.dataStore k = none → s.get A k = none) ∧
    (mapLookup s.keyCache k = none → s.get A k = none) ∧
    (∀ e ik err, mapLookup s.dataStore k = some e → mapLookup s.keyCache k = some ik →
        decryptData A e ik = .error err → s.get A k = none) ∧
    (∀ v, s.get A k = some v ↔
        ∃ e ik, mapLookup s.dataStore k = some e ∧ mapLookup s.keyCache k = some ik ∧
          decryptData A e ik = .ok v) := by
  refine ⟨?_, ?_, ?_, ?_⟩
  · intro h
    rw [get_eq_bind, h]
    rfl
  · intro h
    rw [get_eq_bind, h]
    cases mapLookup s.dataStore k <;> rfl
  · intro e ik err hd hk hdec
    rw [get_eq_bind, hd, hk]
    simp [hdec, Except.toOption]
  · intro v
    rw [get_eq_bind]
    constructor
    · intro h
      cases hd : mapLookup s.dataStore k with
      | none => simp [hd] at h
      | some e =>
          cases hk : mapLookup s.keyCache k with
          | none => simp [hd, hk] at h
          | some ik =>
              cases hdec : decryptData A e ik with
              | error err => simp [hd, hk, hdec, Except.toOption] at h
              | ok d =>
                  simp [hd, hk, hdec, Except.toOption] at h
                  subst h
                  exact ⟨e, ik, rfl, rfl, hdec⟩
    · rintro ⟨e, ik, hd, hk, hdec⟩
      simp [hd, hk, hdec, Except.toOption]

theorem C5_witness :
    (mapLookup store1.dataStore [2] = none → store1.get testAEAD [2] = none) ∧
    (mapLookup store1.keyCache [2] = none → store1.get testAEAD [2] = none) ∧
    (∀ e ik err, mapLookup store1.dataStore [2] = some e →
        mapLookup store1.keyCache [2] = some ik →
        decryptData testAEAD e ik = .error err → store1.get testAEAD [2] = none) ∧
    (∀ v, store1.get testAEAD [2] = some v ↔
        ∃ e ik, mapLookup store1.dataStore [2] = some e ∧
          mapLookup store1.keyCache [2] = some ik ∧ decryptData testAEAD e ik = .ok v) :=
  C5_get_absence_via_boolean testAEAD store1 [2]

/-- C6: contrary to the claim, Wipe does not restore automatic memory
reclamation. NewSecureStore disables collection process-wide by calling
debug.SetGCPercent(-1); the body of Wipe contains no SetGCPercent call, so
after Wipe the percent is still -1, not a restored value. The only restoring
code, SetGCPercent(100), sits inside the cleanupFunc closure, which no
statement in the program ever invokes. -/
theorem C6_wipe_leaves_gc_disabled :
    ((newSecureStore mk0).wipeStore).gcPercent = -1 ∧
    (newSecureStore mk0).gcPercent = -1 ∧
    ((newSecureStore mk0).cleanupFunc).gcPercent = 100 ∧
    ((-1 : Int) ≠ 100) := by
  decide

/-- C7: after Wipe both mappings are empty and the master key is all zero
(every one of its bytes overwritten with 0), and a second Wipe on the
already-emptied store leaves the state exactly unchanged. -/
theorem C7_wipe_empties_and_is_idempotent (s : SecureStore) :
    (s.wipe).dataStore = [] ∧ (s.wipe).keyCache = [] ∧
    (s.wipe).masterKey = List.replicate s.masterKey.length 0 ∧
    (s.wipe).wipe = s.wipe := by
  refine ⟨rfl, rfl, rfl, ?_⟩
  unfold SecureStore.wipe
  simp

/-- C8: Delete leaves the buffer that backed the stored ciphertext all-zero
and the wiped per-item key value all-zero (second and third components), it
removes both entries so that a subsequent Get reports not-found, and on an
absent identifier it is a no-op that changes nothing and returns no error
(Delete has no error result at all). -/
theorem C8_delete_wipes_and_removes (A : AEAD) (s : SecureStore) (k : Bytes) :
    ((s.delete k).1).get A k = none ∧
    (s.delete k).2.1 = (mapLookup s.dataStore k).map (fun e => List.replicate e.length 0) ∧
    (s.delete k).2.2 = (mapLookup s.keyCache k).map (fun e => List.replicate e.length 0) ∧
    (mapLookup s.dataStore k = none → mapLookup s.keyCache k = none →
        (s.delete k).1 = s) := by
  refine ⟨?_, rfl, rfl, ?_⟩
  · have hd : mapLookup (mapErase s.dataStore k) k = none := by
      rw [mapLookup_erase, if_pos rfl]
    have hstore : (s.delete k).1 =
        ⟨s.masterKey, mapErase s.dataStore k, mapErase s.keyCache k⟩ := rfl
    rw [hstore, get_eq_bind]
    simp [hd]
  · intro h1 h2
    have hstore : (s.delete k).1 =
        ⟨s.masterKey, mapErase s.dataStore k, mapErase s.keyCache k⟩ := rfl
    rw [hstore, mapErase_of_lookup_none _ _ h1, mapErase_of_lookup_none _ _ h2]

theorem C8_witness :
    ((store1.delete [1]).1).get testAEAD [1] = none ∧
    (store1.delete [1]).2.1 =
      (mapLookup store1.dataStore [1]).map (fun e => List.replicate e.length 0) ∧
    (store1.delete [1]).2.2 =
      (mapLookup store1.keyCache [1]).map (fun e => List.replicate e.length 0) ∧
    (mapLookup store1.dataStore [1] = none → mapLookup store1.keyCache [1] = none →
        (store1.delete [1]).1 = store1) :=
  C8_delete_wipes_and_removes testAEAD store1 [1]

/-- C9: in every store state reachable from a fresh store through the public
operations, the ciphertext mapping and the per-item-key mapping hold exactly
the same identifiers: a lookup in one succeeds if and only if the lookup in
the other does. -/
theorem C9_mappings_share_keys (E : Bytes → Bytes → Bytes) (A : AEAD)
    (s : SecureStore) (k : Bytes) (h : Reachable E A s) :
    (mapLookup s.dataStore k).isSome = (mapLookup s.keyCache k).isSome := by
  induction h with
  | new mk => rfl
  | set s' k' data ent hr ih =>
      cases ent with
      | none => exact ih
      | some nonce =>
          have hstore : (SecureStore.set E A s' k' data (some nonce)).store =
              ⟨s'.masterKey,
               mapInsert s'.dataStore k'
                 (nonce ++ A.sealAead (deriveKey E s'.masterKey k') nonce data),
               mapInsert s'.keyCache k' (deriveKey E s'.masterKey k')⟩ := rfl
          rw [hstore]
          show (mapLookup (mapInsert s'.dataStore k' _) k).isSome =
            (mapLookup (mapInsert s'.keyCache k' _) k).isSome
          rw [mapLookup_insert, mapLookup_insert]
          by_cases hk : k' = k <;> simp [hk, ih]
  | del s' k' hr ih =>
      have hstore : (s'.delete k').1 =
          ⟨s'.masterKey, mapErase s'.dataStore k', mapErase s'.keyCache k'⟩ := rfl
      rw [hstore]
      show (mapLookup (mapErase s'.dataStore k') k).isSome =
        (mapLookup (mapErase s'.keyCache k') k).isSome
      rw [mapLookup_erase, mapLookup_erase]
      by_cases hk : k' = k <;> simp [hk, ih]
  | wipe s' hr ih => rfl

theorem C9_witness :
    (mapLookup store1.dataStore [1]).isSome = (mapLookup store1.keyCache [1]).isSome :=
  C9_mappings_share_keys idBlockCipher testAEAD store1 [1]
    (Reachable.set store0 [1] [5, 6] (some nonce0) (Reachable.new mk0))

/-- C10: when the encryption step of Set fails (here: nonce generation
failing, the one fallible step given the fixed 32-byte derived key), Set
returns the error and the store, both mappings included, is exactly the
state before the call; the caller buffer is not wiped either. In general a
call to Set either leaves the store unchanged or updates both mappings
together, never one without the other. -/
theorem C10_set_error_leaves_state_unchanged (E : Bytes → Bytes → Bytes) (A : AEAD)
    (s : SecureStore) (k data : Bytes) :
    (SecureStore.set E A s k data none).store = s ∧
    (SecureStore.set E A s k data none).err = some CryptoErr.randomnessUnavailable ∧
    (SecureStore.set E A s k data none).callerBuf = data ∧
    (∀ ent, (SecureStore.set E A s k data ent).store = s ∨
        ∃ enc, (SecureStore.set E A s k data ent).store =
          ⟨s.masterKey, mapInsert s.dataStore k enc,
           mapInsert s.keyCache k (deriveKey E s.masterKey k)⟩) := by
  refine ⟨rfl, rfl, rfl, ?_⟩
  intro ent
  cases ent with
  | none => exact Or.inl rfl
  | some nonce => exact Or.inr ⟨_, rfl⟩

end SafeMem
